import Mathlib

/-!
Verification of the FlareDashBoard aggregation engine.

The Python source operates on a pandas DataFrame of booking records.  We embed
the engine shallowly: a table is a `List Row`, one `Row` per booking record,
and each engine function becomes a Lean function over such lists.  Strings
(period labels `YYYY-MM`, class names, display names) are Lean `String`s;
pandas' elementwise string comparison is lexicographic comparison of code
points, modelled by `strLe`.  Missing values (`NaN`) in nullable columns are
modelled with `Option`.  Python exceptions that a function catches or raises
are modelled with `Option` results (`none` = the exception path).

Where the source relies on pandas group-key ordering (`groupby` sorts keys
ascending) the embedding keeps first-encounter order instead
(`pandasUnique`); every property proved below depends only on the multiset
of groups, never on their order, so this does not affect any claim.
-/

/-! ## String utilities

`charListLe` / `strLe` model pandas' elementwise string `<=` (lexicographic
on code points, as used for `YYYY-MM` period comparisons).  `containsCS` and
`containsCI` model `Series.str.contains(pat)` with and without `case=False`
for a literal (non-regex) pattern; `lowerNat` models ASCII lowercasing, which
agrees with Python lowercasing on the data alphabet in use here. -/

def charListLe : List Char → List Char → Bool
  | [], _ => true
  | _ :: _, [] => false
  | a :: as, b :: bs =>
    if a.toNat < b.toNat then true
    else if b.toNat < a.toNat then false
    else charListLe as bs

def strLe (a b : String) : Bool := charListLe a.toList b.toList

def lowerNat (c : Char) : Nat :=
  if 65 ≤ c.toNat ∧ c.toNat ≤ 90 then c.toNat + 32 else c.toNat

def takesPref : List Nat → List Nat → Bool
  | [], _ => true
  | _ :: _, [] => false
  | a :: as, b :: bs => a == b && takesPref as bs

def occursIn (p : List Nat) : List Nat → Bool
  | [] => takesPref p []
  | c :: cs => takesPref p (c :: cs) || occursIn p cs

def containsCS (pat s : String) : Bool :=
  occursIn (pat.toList.map Char.toNat) (s.toList.map Char.toNat)

def containsCI (pat s : String) : Bool :=
  occursIn (pat.toList.map lowerNat) (s.toList.map lowerNat)

/-- Models `Class_Name.str.contains("Self Practice", case=False, na=False)`:
a missing class name does not match (the row is kept by `~contains`). -/
def selfPracticeCI : Option String → Bool
  | none => false
  | some s => containsCI "Self Practice" s

/-- Models `Class_Name.str.contains("Self Practice", na=False)` (the
case-sensitive form used in `student_distribution.calculate_distribution`). -/
def selfPracticeCS : Option String → Bool
  | none => false
  | some s => containsCS "Self Practice" s

/-! ## Calendar and periods -/

/-- A concrete timestamp (`Start_Date_time`): year, month (1-12), day,
and second within the day.  Rows in the uploaded data always carry a valid
timestamp after the parse step (out of engine scope). -/
structure Timestamp where
  year : Nat
  month : Nat
  day : Nat
  sec : Nat
deriving DecidableEq, Repr

def pad2 (n : Nat) : String := if n < 10 then "0" ++ toString n else toString n

def pad4 (n : Nat) : String :=
  if n < 10 then "000" ++ toString n
  else if n < 100 then "00" ++ toString n
  else if n < 1000 then "0" ++ toString n
  else toString n

/-- Canonical `YYYY-MM` label of a (year, month) pair, as produced by
`dt.to_period("M").astype(str)` and `dt.strftime("%Y-%m")`. -/
def ymStr (ym : Nat × Nat) : String := pad4 ym.1 ++ "-" ++ pad2 ym.2

def Timestamp.ym (t : Timestamp) : Nat × Nat := (t.year, t.month)

def Timestamp.periodStr (t : Timestamp) : String := ymStr t.ym

/-- Chronological order on timestamps (pandas `Timestamp` comparison). -/
def tsLe (a b : Timestamp) : Bool :=
  if a.year ≠ b.year then a.year < b.year
  else if a.month ≠ b.month then a.month < b.month
  else if a.day ≠ b.day then a.day < b.day
  else a.sec ≤ b.sec

/-- Linear index of a calendar month, for ranging over month spans. -/
def ymIdx (ym : Nat × Nat) : Nat := ym.1 * 12 + ym.2

def isLeapYear (y : Nat) : Bool := (y % 4 == 0 && y % 100 != 0) || (y % 400 == 0)

/-- Number of days in a calendar month; `pd.offsets.MonthEnd` lands on this
day of the month at midnight. -/
def daysInMonth (y m : Nat) : Nat :=
  if m == 2 then (if isLeapYear y then 29 else 28)
  else if m == 4 || m == 6 || m == 9 || m == 11 then 30
  else 31

def digitVal (c : Char) : Option Nat :=
  if 48 ≤ c.toNat ∧ c.toNat ≤ 57 then some (c.toNat - 48) else none

/-- Models `pd.to_datetime(s, format="%Y-%m")` / `pd.Period(s, freq="M")` on
the canonical zero-padded form: four digits, a dash, a two-digit month in
01..12.  Any other shape raises in Python; that is the `none` branch here. -/
def parsePeriod (s : String) : Option (Nat × Nat) :=
  match s.toList with
  | [c1, c2, c3, c4, dash, c5, c6] =>
    match digitVal c1, digitVal c2, digitVal c3, digitVal c4,
          digitVal c5, digitVal c6 with
    | some d1, some d2, some d3, some d4, some d5, some d6 =>
      if dash = '-' then
        let y := ((d1 * 10 + d2) * 10 + d3) * 10 + d4
        let m := d5 * 10 + d6
        if 1 ≤ m ∧ m ≤ 12 then some (y, m) else none
      else none
    | _, _, _, _, _, _ => none
  | _ => none

def monthSucc : Nat × Nat → Nat × Nat
  | (y, m) => if m == 12 then (y + 1, 1) else (y, m + 1)

/-- All calendar months from `s` to `e` inclusive, in order; empty when
`s` is after `e` (models `pd.period_range` / `pd.date_range(freq="MS")`). -/
def monthRange (s e : Nat × Nat) : List (Nat × Nat) :=
  if ymIdx s ≤ ymIdx e then
    (List.range (ymIdx e + 1 - ymIdx s)).map (fun i => monthSucc^[i] s)
  else []

/-! ## Generic list helpers -/

/-- First-encounter-order deduplication, as `Series.unique()` /
`drop_duplicates()` produce. -/
def pandasUniqueAux {α : Type} [DecidableEq α] : List α → List α → List α
  | _, [] => []
  | seen, a :: l =>
    if a ∈ seen then pandasUniqueAux seen l
    else a :: pandasUniqueAux (a :: seen) l

def pandasUnique {α : Type} [DecidableEq α] (l : List α) : List α :=
  pandasUniqueAux [] l

theorem mem_pandasUniqueAux {α : Type} [DecidableEq α] (x : α) :
    ∀ (l seen : List α), x ∈ pandasUniqueAux seen l ↔ x ∈ l ∧ x ∉ seen := by
  intro l
  induction l with
  | nil => intro seen; simp [pandasUniqueAux]
  | cons a l ih =>
    intro seen
    by_cases ha : a ∈ seen
    · rw [pandasUniqueAux, if_pos ha, ih, List.mem_cons]
      constructor
      · rintro ⟨hx, hns⟩; exact ⟨Or.inr hx, hns⟩
      · rintro ⟨hx | hx, hns⟩
        · exact absurd (hx ▸ ha) hns
        · exact ⟨hx, hns⟩
    · rw [pandasUniqueAux, if_neg ha, List.mem_cons, List.mem_cons, ih]
      constructor
      · rintro (rfl | ⟨hx, hns⟩)
        · exact ⟨Or.inl rfl, ha⟩
        · exact ⟨Or.inr hx, fun h => hns (List.mem_cons_of_mem a h)⟩
      · rintro ⟨rfl | hx, hns⟩
        · exact Or.inl rfl
        · by_cases hxa : x = a
          · exact Or.inl hxa
          · exact Or.inr ⟨hx, by simp [List.mem_cons, hxa, hns]⟩

theorem mem_pandasUnique {α : Type} [DecidableEq α] (x : α) (l : List α) :
    x ∈ pandasUnique l ↔ x ∈ l := by
  simp [pandasUnique, mem_pandasUniqueAux]

theorem nodup_pandasUniqueAux {α : Type} [DecidableEq α] :
    ∀ (l seen : List α), (pandasUniqueAux seen l).Nodup := by
  intro l
  induction l with
  | nil => intro seen; simp [pandasUniqueAux]
  | cons a l ih =>
    intro seen
    by_cases ha : a ∈ seen
    · rw [pandasUniqueAux, if_pos ha]; exact ih seen
    · rw [pandasUniqueAux, if_neg ha]
      refine List.Nodup.cons ?_ (ih (a :: seen))
      intro h
      exact ((mem_pandasUniqueAux a l (a :: seen)).mp h).2 (List.mem_cons_self a seen)

theorem nodup_pandasUnique {α : Type} [DecidableEq α] (l : List α) :
    (pandasUnique l).Nodup :=
  nodup_pandasUniqueAux l []

/-- Split of a strict-lower-bound count at the next value. -/
theorem length_filter_gt_split (ps : List Nat) (g : Nat → Nat) (m : Nat) :
    (ps.filter (fun p => m < g p)).length
      = (ps.filter (fun p => g p == m + 1)).length
        + (ps.filter (fun p => m + 1 < g p)).length := by
  induction ps with
  | nil => simp
  | cons a ps ih =>
    simp only [List.filter_cons]
    by_cases h1 : g a = m + 1
    · have hm : m < g a := by omega
      have h2 : ¬ m + 1 < g a := by omega
      simp [hm, h2, h1]
      omega
    · by_cases h2 : m + 1 < g a
      · have hm : m < g a := by omega
        simp [hm, h2, h1]
        omega
      · have hm : ¬ m < g a := by omega
        simp [hm, h2, h1]
        omega

/-- Complementary counts: a filter and its negation cover a list. -/
theorem length_filter_add_length_filter_not {α : Type} (l : List α) (p : α → Bool) :
    (l.filter p).length + (l.filter (fun a => ! p a)).length = l.length := by
  induction l with
  | nil => simp
  | cons a l ih =>
    by_cases h : p a
    · simp [List.filter_cons, h]; omega
    · simp [List.filter_cons, h]; omega

/-! ## The Booking Table -/

/-- One booking record, a row of the uploaded table.  Field names follow the
source columns `Id_Person`, `FirstName`, `Class_Name`, `Start_Date_time`, and
`Cateory` (sic — the source's spelling).  `Class_Name` and `Cateory` are
nullable; `Id_Person` is an opaque grouping key, modelled as `Nat`. -/
structure Row where
  idPerson : Nat
  firstName : String
  className : Option String
  startDateTime : Timestamp
  category : Option String
deriving DecidableEq, Repr

/-! ## Frequency Table builder — `src/utils.py`, `create_frequency_table` -/

/-- Period-window filter of `create_frequency_table`: a single period selects
rows of exactly that month; a start/end pair selects months in the inclusive
range by lexicographic string comparison; with neither, the function returns
`None`.  (Python tests truthiness of the keyword arguments; we model their
presence with `Option`.) -/
def freqWindowFiltered (data : List Row) (period : Option String)
    (startPeriod endPeriod : Option String) : Option (List Row) :=
  match period with
  | some p => some (data.filter (fun r => r.startDateTime.periodStr == p))
  | none =>
    match startPeriod, endPeriod with
    | some s, some e =>
      some (data.filter (fun r =>
        strLe s r.startDateTime.periodStr && strLe r.startDateTime.periodStr e))
    | _, _ => none

/-- The window filter followed by the case-insensitive Self Practice
exclusion (`~Class_Name.str.contains("Self Practice", case=False, na=False)`). -/
def freqFiltered (data : List Row) (period : Option String)
    (startPeriod endPeriod : Option String) : Option (List Row) :=
  (freqWindowFiltered data period startPeriod endPeriod).map
    (List.filter (fun r => ! selfPracticeCI r.className))

/-- Distinct students of a filtered table — the index of
`booking_frequencies = data_filtered.groupby("Id_Person").size()`.
(pandas sorts group keys; only the set of keys matters below.) -/
def personsOf (l : List Row) : List Nat := pandasUnique (l.map (·.idPerson))

/-- A student's booking frequency: `booking_frequencies[p]`. -/
def freqOf (l : List Row) (p : Nat) : Nat :=
  (l.filter (fun r => r.idPerson == p)).length

/-- Number of students with frequency exactly `i`:
`sum(booking_frequencies == i)`. -/
def nStudentsEq (l : List Row) (i : Nat) : Nat :=
  ((personsOf l).filter (fun p => freqOf l p == i)).length

/-- Number of students with frequency at most `i`:
`sum(booking_frequencies <= i)`. -/
def nStudentsLe (l : List Row) (i : Nat) : Nat :=
  ((personsOf l).filter (fun p => freqOf l p ≤ i)).length

/-- Number of students with frequency strictly above `i`:
`sum(booking_frequencies > i)`. -/
def nStudentsGt (l : List Row) (i : Nat) : Nat :=
  ((personsOf l).filter (fun p => i < freqOf l p)).length

/-- Number of students with frequency at least `i` (used to state the spec's
reading of the "Cum to-End" column; the source itself never computes this). -/
def nStudentsGe (l : List Row) (i : Nat) : Nat :=
  ((personsOf l).filter (fun p => i ≤ freqOf l p)).length

/-- Total number of students with a qualifying booking:
`len(booking_frequencies)`. -/
def nStudents (l : List Row) : Nat := (personsOf l).length

/-- One row of the frequency table: columns `Freq`, `#Students`, `Cum 1->`,
`Cum ->End`.  The `Details` display string is not modelled (no claim touches
it). -/
structure FreqRow where
  freq : String
  numStudents : Nat
  cum1 : Nat
  cumEnd : Nat
deriving DecidableEq, Repr

/-- `create_frequency_table(data, period, start_period, end_period, max_upper)`:
bins `1..max_upper` hold exact-frequency counts and the final overflow bin
holds `sum(booking_frequencies > max_upper)`; `Cum 1->` is
`sum(booking_frequencies <= i)` and `Cum ->End` is
`len(booking_frequencies) - sum(booking_frequencies <= i)`, with
`len(booking_frequencies)` and `sum(booking_frequencies > max_upper)` in the
overflow bin. -/
def create_frequency_table (data : List Row) (period : Option String)
    (startPeriod endPeriod : Option String) (maxUpper : Nat) :
    Option (List FreqRow) :=
  (freqFiltered data period startPeriod endPeriod).map (fun f =>
    ((List.range' 1 maxUpper).map (fun i =>
      ⟨toString i, nStudentsEq f i, nStudentsLe f i,
        nStudents f - nStudentsLe f i⟩))
    ++ [⟨">" ++ toString maxUpper, nStudentsGt f maxUpper, nStudents f,
          nStudentsGt f maxUpper⟩])

theorem freqOf_pos_of_mem_personsOf (l : List Row) (p : Nat)
    (h : p ∈ personsOf l) : 1 ≤ freqOf l p := by
  rw [personsOf, mem_pandasUnique] at h
  rcases List.mem_map.mp h with ⟨r, hr, hrp⟩
  have : r ∈ l.filter (fun r => r.idPerson == p) :=
    List.mem_filter.mpr ⟨hr, by simp [hrp]⟩
  have hlen := List.length_pos.mpr (List.ne_nil_of_mem this)
  simpa [freqOf] using hlen

/-- Binning partitions the students: summing the exact-frequency bins
`1..m` together with the overflow count accounts for every student once. -/
theorem bins_partition (ps : List Nat) (g : Nat → Nat)
    (hg : ∀ p ∈ ps, 1 ≤ g p) :
    ∀ m : Nat,
      (((List.range' 1 m).map
          (fun i => (ps.filter (fun p => g p == i)).length)).sum
        + (ps.filter (fun p => m < g p)).length) = ps.length := by
  intro m
  induction m with
  | zero =>
    have : ps.filter (fun p => 0 < g p) = ps :=
      List.filter_eq_self.mpr (fun p hp => by simpa using hg p hp)
    simp [this]
  | succ m ih =>
    rw [List.range'_1_concat, List.map_append, List.sum_append]
    simp only [List.map_cons, List.map_nil, List.sum_cons, List.sum_nil]
    have hsplit := length_filter_gt_split ps g m
    have hc : (List.filter (fun p => g p == 1 + m) ps).length
        = (List.filter (fun p => g p == m + 1) ps).length := by
      simp [Nat.add_comm]
    omega

theorem nStudentsLe_add_nStudentsGt (f : List Row) (i : Nat) :
    nStudentsLe f i + nStudentsGt f i = nStudents f := by
  have hcong : (personsOf f).filter (fun p => ! decide (freqOf f p ≤ i))
      = (personsOf f).filter (fun p => decide (i < freqOf f p)) := by
    refine List.filter_congr (fun p _ => ?_)
    by_cases h : freqOf f p ≤ i
    · simp [h, Nat.not_lt.mpr h]
    · simp [h, Nat.lt_of_not_le h]
  have hlen := length_filter_add_length_filter_not (personsOf f)
    (fun p => decide (freqOf f p ≤ i))
  rw [hcong] at hlen
  simpa [nStudentsLe, nStudentsGt, nStudents] using hlen

/-- C3: over any window and positive `maxUpper`, the `#Students` column of the
frequency table sums to the number of distinct students with at least one
non-Self-Practice booking in the window (`len(booking_frequencies)`). -/
theorem frequency_table_sum_students
    (data : List Row) (period startPeriod endPeriod : Option String)
    (maxUpper : Nat) (hmax : 1 ≤ maxUpper) (f : List Row)
    (hf : freqFiltered data period startPeriod endPeriod = some f)
    (t : List FreqRow)
    (ht : create_frequency_table data period startPeriod endPeriod maxUpper = some t) :
    (t.map (·.numStudents)).sum = nStudents f := by
  have ht' : ((List.range' 1 maxUpper).map (fun i =>
        (⟨toString i, nStudentsEq f i, nStudentsLe f i,
          nStudents f - nStudentsLe f i⟩ : FreqRow)))
      ++ [⟨">" ++ toString maxUpper, nStudentsGt f maxUpper, nStudents f,
            nStudentsGt f maxUpper⟩] = t := by
    rw [create_frequency_table, hf] at ht
    simpa using ht
  rw [← ht', List.map_append, List.map_map]
  simp only [List.map_cons, List.map_nil, List.sum_append, List.sum_cons,
    List.sum_nil, Function.comp]
  have hpart := bins_partition (personsOf f) (freqOf f)
    (fun p hp => freqOf_pos_of_mem_personsOf f p hp) maxUpper
  simpa [nStudentsEq, nStudentsGt, nStudents] using hpart

/-- Sample table: students 1 and 2 book once each in 2024-01; student 1 also
has a Self Practice row (excluded). -/
def sampleA : List Row :=
  [⟨1, "Ann", some "Spin Basics", ⟨2024, 1, 5, 36000⟩, some "Spin"⟩,
   ⟨2, "Bob", some "Choreo Jam", ⟨2024, 1, 6, 39600⟩, some "Choreo"⟩,
   ⟨1, "Ann", some "Self Practice", ⟨2024, 1, 7, 36000⟩, none⟩]

/-- The qualifying rows of `sampleA` for the window 2024-01..2024-01. -/
def sampleAF : List Row :=
  [⟨1, "Ann", some "Spin Basics", ⟨2024, 1, 5, 36000⟩, some "Spin"⟩,
   ⟨2, "Bob", some "Choreo Jam", ⟨2024, 1, 6, 39600⟩, some "Choreo"⟩]

/-- The frequency table of `sampleA` for 2024-01..2024-01 with `maxUpper = 2`. -/
def sampleAT : List FreqRow :=
  [⟨"1", 2, 2, 0⟩, ⟨"2", 0, 2, 0⟩, ⟨">2", 0, 2, 0⟩]

/-- Witness for C3 at `sampleA`: the bins sum to the 2 qualifying students. -/
theorem frequency_table_sum_students_witness :
    (sampleAT.map (·.numStudents)).sum = nStudents sampleAF :=
  frequency_table_sum_students sampleA none (some "2024-01") (some "2024-01")
    2 (by decide) sampleAF (by decide) sampleAT (by decide)

/-- C8 (amended): the `Cum ->End` value of bin `i` (for `1 ≤ i ≤ maxUpper`)
equals the number of students with booking frequency STRICTLY greater than
`i` — the code computes `len(booking_frequencies) - sum(freq <= i)`, which
excludes the current bin, not `count(freq >= i)` as the claim states. -/
theorem frequency_table_cumEnd
    (data : List Row) (period startPeriod endPeriod : Option String)
    (maxUpper i : Nat) (h1 : 1 ≤ i) (h2 : i ≤ maxUpper) (f : List Row)
    (hf : freqFiltered data period startPeriod endPeriod = some f)
    (t : List FreqRow)
    (ht : create_frequency_table data period startPeriod endPeriod maxUpper = some t) :
    (t[i - 1]?).map (·.cumEnd) = some (nStudentsGt f i) := by
  have ht' : ((List.range' 1 maxUpper).map (fun j =>
        (⟨toString j, nStudentsEq f j, nStudentsLe f j,
          nStudents f - nStudentsLe f j⟩ : FreqRow)))
      ++ [⟨">" ++ toString maxUpper, nStudentsGt f maxUpper, nStudents f,
            nStudentsGt f maxUpper⟩] = t := by
    rw [create_frequency_table, hf] at ht
    simpa using ht
  have hlt : i - 1 < maxUpper := by omega
  rw [← ht', List.getElem?_append]
  simp only [List.length_map, List.length_range', if_pos hlt,
    List.getElem?_map, List.getElem?_range' 1 1 hlt]
  have hi : 1 + 1 * (i - 1) = i := by omega
  rw [hi]
  simp only [Option.map_some']
  have hadd := nStudentsLe_add_nStudentsGt f i
  have : nStudents f - nStudentsLe f i = nStudentsGt f i := by omega
  rw [this]

/-- Witness for C8 (amended) at `sampleA`, bin 1: both students have
frequency 1, so `Cum ->End` is the 0 students with frequency above 1. -/
theorem frequency_table_cumEnd_witness :
    ((sampleAT[0]?).map (·.cumEnd)) = some (nStudentsGt sampleAF 1) :=
  frequency_table_cumEnd sampleA none (some "2024-01") (some "2024-01")
    2 1 (by decide) (by decide) sampleAF (by decide) sampleAT (by decide)

/-- Counterexample to C8 as stated: with one student booking once in the
window and `maxUpper = 1`, bin 1's `Cum ->End` is `1 - sum(freq <= 1) = 0`,
but the number of students with frequency in the range from 1 up to the
maximum observed (frequency >= 1) is 1. -/
theorem frequency_table_cumEnd_claim_false :
    (create_frequency_table sampleAF none (some "2024-01") (some "2024-01") 1).map
        (fun t => (t[0]?).map (·.cumEnd))
      ≠ (freqFiltered sampleAF none (some "2024-01") (some "2024-01")).map
        (fun f => some (nStudentsGe f 1)) := by decide

/-! ## Top-K-per-Period Ranker — `src/top_20_users_utils.py`, `calculate_top_20` -/

/-- Month order used for the window filter
(`Month.dt.to_timestamp() >= start_date` compares month-start timestamps). -/
def ymLeB (a b : Nat × Nat) : Bool :=
  a.1 < b.1 || (a.1 == b.1 && a.2 ≤ b.2)

/-- The qualifying rows of `calculate_top_20`: Self Practice excluded
(case-insensitively), then months restricted to `[start_date, end_date]`. -/
def top20Window (df : List Row) (sp ep : Nat × Nat) : List Row :=
  (df.filter (fun r => ! selfPracticeCI r.className)).filter
    (fun r => ymLeB sp r.startDateTime.ym && ymLeB r.startDateTime.ym ep)

/-- One output row of the ranker: columns
`Month, Rank, Id_Person, FirstName, Bookings, Formatted`. -/
structure TopRow where
  month : String
  rank : Nat
  idPerson : Nat
  firstName : String
  bookings : Nat
  formatted : String
deriving DecidableEq, Repr

/-- `booking_counts` of `get_top_20_for_month`: per-student sizes sorted by
`Bookings` descending.  pandas' `sort_values` leaves the order among equal
counts implementation-defined; we use a stable sort — no claim below depends
on the order among ties beyond the multiset of counts. -/
def bookingCountsSorted (monthData : List Row) : List (Nat × Nat) :=
  List.insertionSort (fun a b : Nat × Nat => b.2 ≤ a.2)
    ((personsOf monthData).map (fun p => (p, freqOf monthData p)))

/-- Rank assignment `range(1, len + 1)` plus the `Formatted` display column
(`FirstName + " (" + Id + ") : " + Bookings`, attached by the caller to every
row of the concatenated result). -/
def addRanks (m : String) : Nat → List (Nat × String × Nat) → List TopRow
  | _, [] => []
  | k, (i, nm, bk) :: rest =>
    ⟨m, k, i, nm, bk, nm ++ " (" ++ toString i ++ ") : " ++ toString bk⟩
      :: addRanks m (k + 1) rest

/-- `get_top_20_for_month(month_data)`: count bookings per student, sort by
count descending, `head(20)`, left-merge the per-month
`[["Id_Person", "FirstName"]].drop_duplicates()` details, stamp the month
(`month_data["Month"].iloc[0]`) and ranks `1..len`.  A count row whose
student had no detail row would keep a null name after the left merge; that
cannot happen since the counts come from the same rows, and the embedding
simply emits the matching detail rows. -/
def get_top_20_for_month (monthData : List Row) : List TopRow :=
  let bookingCounts := (bookingCountsSorted monthData).take 20
  let studentDetails := pandasUnique (monthData.map (fun r => (r.idPerson, r.firstName)))
  let m := match monthData with
    | [] => ""
    | r :: _ => r.startDateTime.periodStr
  let merged := bookingCounts.flatMap (fun pc =>
    (studentDetails.filter (fun d => d.1 == pc.1)).map (fun d => (pc.1, d.2, pc.2)))
  addRanks m 1 merged

/-- `calculate_top_20(df, start_date, end_date)`.  The whole body runs inside
`try/except`; the reachable exception is `pd.to_datetime` rejecting a period
string, and the handler returns the same empty frame as the empty-window
check, so both appear as the `[]` result. -/
def calculate_top_20 (df : List Row) (startDate endDate : String) : List TopRow :=
  match parsePeriod startDate, parsePeriod endDate with
  | some sp, some ep =>
    let filteredData := top20Window df sp ep
    if filteredData.isEmpty then []
    else
      (pandasUnique (filteredData.map (·.startDateTime.periodStr))).flatMap
        (fun m => get_top_20_for_month
          (filteredData.filter (fun r => r.startDateTime.periodStr == m)))
  | _, _ => []

theorem addRanks_length (m : String) :
    ∀ (k : Nat) (l : List (Nat × String × Nat)), (addRanks m k l).length = l.length := by
  intro k l
  induction l generalizing k with
  | nil => simp [addRanks]
  | cons a rest ih =>
    obtain ⟨i, nm, bk⟩ := a
    simp [addRanks, ih]

theorem addRanks_month (m : String) :
    ∀ (k : Nat) (l : List (Nat × String × Nat)) (r : TopRow),
      r ∈ addRanks m k l → r.month = m := by
  intro k l
  induction l generalizing k with
  | nil => intro r hr; simp [addRanks] at hr
  | cons a rest ih =>
    obtain ⟨i, nm, bk⟩ := a
    intro r hr
    rcases List.mem_cons.mp hr with h | h
    · rw [h]
    · exact ih (k + 1) r h

theorem nodup_all_eq_length {α : Type} (l : List α) (a : α) (hn : l.Nodup)
    (hall : ∀ x ∈ l, x = a) (hne : a ∈ l) : l.length = 1 := by
  cases l with
  | nil => cases hne
  | cons x t =>
    cases t with
    | nil => simp
    | cons y t2 =>
      exfalso
      have hx : x = a := hall x (List.mem_cons_self x _)
      have hy : y = a := hall y (List.mem_cons_of_mem x (List.mem_cons_self y t2))
      have := (List.nodup_cons.mp hn).1
      exact this (by rw [hx, ← hy]; exact List.mem_cons_self y t2)

theorem exists_row_of_mem_personsOf (l : List Row) (p : Nat)
    (hp : p ∈ personsOf l) : ∃ r ∈ l, r.idPerson = p := by
  rw [personsOf, mem_pandasUnique] at hp
  rcases List.mem_map.mp hp with ⟨r, hr, hrp⟩
  exact ⟨r, hr, hrp⟩

theorem details_filter_length (monthData : List Row) (p : Nat)
    (hp : ∃ r ∈ monthData, r.idPerson = p)
    (hnames : ∀ r ∈ monthData, ∀ r' ∈ monthData,
      r.idPerson = r'.idPerson → r.firstName = r'.firstName) :
    ((pandasUnique (monthData.map (fun r => (r.idPerson, r.firstName)))).filter
      (fun d => d.1 == p)).length = 1 := by
  obtain ⟨r0, hr0, hr0p⟩ := hp
  apply nodup_all_eq_length _ (p, r0.firstName)
  · exact (nodup_pandasUnique _).filter _
  · intro d hd
    have hdm := List.mem_filter.mp hd
    have hdl := (mem_pandasUnique _ _).mp hdm.1
    rcases List.mem_map.mp hdl with ⟨r', hr', hdr⟩
    have hd1 : d.1 = p := by simpa using hdm.2
    have hidr : r'.idPerson = p := by rw [← hdr] at hd1; exact hd1
    have hname : r'.firstName = r0.firstName :=
      hnames r' hr' r0 hr0 (by rw [hidr, hr0p])
    rw [← hdr, hidr, hname]
  · refine List.mem_filter.mpr ⟨(mem_pandasUnique _ _).mpr ?_, by simp⟩
    exact List.mem_map.mpr ⟨r0, hr0, by rw [hr0p]⟩

theorem sum_map_one {α : Type} (l : List α) : (l.map (fun _ => 1)).sum = l.length := by
  rw [List.map_const', List.sum_replicate, smul_eq_mul, mul_one]

/-- Row count of `get_top_20_for_month`: exactly `min 20 (#distinct
students)` whenever each student carries a single display name in the month
data (otherwise the left merge would duplicate rank rows). -/
theorem get_top_20_for_month_length (monthData : List Row)
    (hnames : ∀ r ∈ monthData, ∀ r' ∈ monthData,
      r.idPerson = r'.idPerson → r.firstName = r'.firstName) :
    (get_top_20_for_month monthData).length = min 20 (personsOf monthData).length := by
  simp only [get_top_20_for_month]
  rw [addRanks_length, List.length_flatMap]
  have hmap : ((bookingCountsSorted monthData).take 20).map
      (List.length ∘ fun pc =>
        ((pandasUnique (monthData.map (fun r => (r.idPerson, r.firstName)))).filter
          (fun d => d.1 == pc.1)).map (fun d => (pc.1, d.2, pc.2)))
      = ((bookingCountsSorted monthData).take 20).map (fun _ => 1) := by
    apply List.map_congr_left
    intro pc hpc
    have hpc' : pc ∈ bookingCountsSorted monthData := List.mem_of_mem_take hpc
    have hpc'' : pc ∈ (personsOf monthData).map (fun p => (p, freqOf monthData p)) :=
      (List.perm_insertionSort _ _).mem_iff.mp hpc'
    rcases List.mem_map.mp hpc'' with ⟨p, hp, hppc⟩
    have hp1 : pc.1 = p := by rw [← hppc]
    simp only [Function.comp, List.length_map]
    rw [hp1]
    exact details_filter_length monthData p (exists_row_of_mem_personsOf _ _ hp) hnames
  rw [hmap, sum_map_one, List.length_take]
  have : (bookingCountsSorted monthData).length = (personsOf monthData).length := by
    simp only [bookingCountsSorted]
    rw [(List.perm_insertionSort _ _).length_eq, List.length_map]
  rw [this]

theorem get_top_20_for_month_label (w : List Row) (m : String) (r : TopRow)
    (hr : r ∈ get_top_20_for_month
      (w.filter (fun x => x.startDateTime.periodStr == m))) : r.month = m := by
  cases hd : w.filter (fun x => x.startDateTime.periodStr == m) with
  | nil =>
    rw [hd] at hr
    simp [get_top_20_for_month, bookingCountsSorted, personsOf, pandasUnique,
      pandasUniqueAux, addRanks, List.insertionSort] at hr
  | cons x xs =>
    rw [hd] at hr
    have hlabel := addRanks_month x.startDateTime.periodStr 1 _ r hr
    have hx : x ∈ w.filter (fun x => x.startDateTime.periodStr == m) := by
      rw [hd]; exact List.mem_cons_self x xs
    have := (List.mem_filter.mp hx).2
    rw [hlabel]
    simpa using this

theorem flatMap_filter_single {α β : Type} [DecidableEq α]
    (l : List α) (m : α) (g : α → List β) (p : β → Bool)
    (hl : l.Nodup) (hm : m ∈ l)
    (hkeep : ∀ b ∈ g m, p b = true)
    (hdrop : ∀ a ∈ l, a ≠ m → ∀ b ∈ g a, p b = false) :
    ((l.flatMap g).filter p).length = (g m).length := by
  induction l with
  | nil => cases hm
  | cons a l ih =>
    rw [List.flatMap_cons, List.filter_append]
    rcases List.mem_cons.mp hm with heq | hm'
    · subst heq
      have h1 : List.filter p (g m) = g m :=
        List.filter_eq_self.mpr (fun b hb => hkeep b hb)
      have h2 : List.filter p (l.flatMap g) = [] := by
        rw [List.filter_eq_nil_iff]
        intro b hb
        rcases List.mem_flatMap.mp hb with ⟨a', ha', hba'⟩
        have hne : a' ≠ m := fun h => (List.nodup_cons.mp hl).1 (h ▸ ha')
        simp [hdrop a' (List.mem_cons_of_mem m ha') hne b hba']
      rw [h1, h2]
      simp
    · have hne : a ≠ m := fun h => (List.nodup_cons.mp hl).1 (h ▸ hm')
      have h1 : List.filter p (g a) = [] := by
        rw [List.filter_eq_nil_iff]
        intro b hb
        simp [hdrop a (List.mem_cons_self a l) hne b hb]
      rw [h1]
      simp only [List.nil_append, List.length_append, List.length_nil]
      exact ih (List.nodup_cons.mp hl).2 hm'
        (fun a' ha' => hdrop a' (List.mem_cons_of_mem a ha'))

/-- C1 (amended): within each month the ranker keeps exactly
`min 20 (#distinct qualifying students)` rows — the top 20 by count with the
tie at the 20th-place count cut arbitrarily, never extended — provided each
student has a single display name in the window (the left merge on
`Id_Person` emits one row per distinct `(Id_Person, FirstName)` pair). -/
theorem calculate_top_20_month_row_count
    (df : List Row) (startDate endDate : String) (sp ep : Nat × Nat)
    (hs : parsePeriod startDate = some sp) (he : parsePeriod endDate = some ep)
    (m : String)
    (hm : m ∈ pandasUnique ((top20Window df sp ep).map (·.startDateTime.periodStr)))
    (hnames : ∀ r ∈ top20Window df sp ep, ∀ r' ∈ top20Window df sp ep,
      r.idPerson = r'.idPerson → r.firstName = r'.firstName) :
    ((calculate_top_20 df startDate endDate).filter (fun r => r.month == m)).length
      = min 20 (personsOf ((top20Window df sp ep).filter
          (fun r => r.startDateTime.periodStr == m))).length := by
  have hmW : m ∈ (top20Window df sp ep).map (·.startDateTime.periodStr) :=
    (mem_pandasUnique _ _).mp hm
  have hWne : top20Window df sp ep ≠ [] := by
    intro h; rw [h] at hmW; cases hmW
  have hWempty : (top20Window df sp ep).isEmpty = false := by
    cases hI : (top20Window df sp ep).isEmpty
    · rfl
    · exact absurd (List.isEmpty_iff.mp hI) hWne
  have hcalc : calculate_top_20 df startDate endDate
      = (pandasUnique ((top20Window df sp ep).map (·.startDateTime.periodStr))).flatMap
          (fun m' => get_top_20_for_month
            ((top20Window df sp ep).filter (fun r => r.startDateTime.periodStr == m'))) := by
    simp [calculate_top_20, hs, he, hWempty]
  rw [hcalc]
  have hsingle := flatMap_filter_single
    (pandasUnique ((top20Window df sp ep).map (·.startDateTime.periodStr))) m
    (fun m' => get_top_20_for_month
      ((top20Window df sp ep).filter (fun r => r.startDateTime.periodStr == m')))
    (fun r => r.month == m)
    (nodup_pandasUnique _) hm
    (fun b hb => by
      have := get_top_20_for_month_label (top20Window df sp ep) m b hb
      simp [this])
    (fun a _ hne b hb => by
      have := get_top_20_for_month_label (top20Window df sp ep) a b hb
      simp [this]
      exact hne)
  rw [hsingle]
  exact get_top_20_for_month_length _
    (fun r hr r' hr' => hnames r (List.mem_of_mem_filter hr) r' (List.mem_of_mem_filter hr'))

/-- Witness for C1 (amended) at `sampleA`: the single month 2024-01 has 2
qualifying students, hence `min 20 2 = 2` ranked rows. -/
theorem calculate_top_20_month_row_count_witness :
    ((calculate_top_20 sampleA "2024-01" "2024-01").filter
        (fun r => r.month == "2024-01")).length
      = min 20 (personsOf ((top20Window sampleA (2024, 1) (2024, 1)).filter
          (fun r => r.startDateTime.periodStr == "2024-01"))).length :=
  calculate_top_20_month_row_count sampleA "2024-01" "2024-01" (2024, 1) (2024, 1)
    (by decide) (by decide) "2024-01" (by decide) (by decide)

/-- Table with 21 distinct students, each booking exactly once in 2024-01. -/
def sample21 : List Row :=
  (List.range 21).map (fun i =>
    ⟨i + 1, "Stu", some "Spin Class", ⟨2024, 1, i % 28 + 1, 0⟩, some "Spin"⟩)

/-- Counterexample to C1 as stated: in `sample21` all 21 students tie at the
20th-place count (every booking count is 1), so a tie-inclusive top 20 would
return all 21 rows for the month; the ranker returns exactly 20, dropping a
student whose count equals the 20th-place count. -/
theorem calculate_top_20_tie_not_inclusive :
    (calculate_top_20 sample21 "2024-01" "2024-01").length = 20
    ∧ (personsOf sample21).length = 21
    ∧ ((personsOf sample21).all (fun p => freqOf sample21 p == 1)) = true := by decide

theorem get_top_20_for_month_ne_nil (monthData : List Row)
    (hne : monthData ≠ []) : get_top_20_for_month monthData ≠ [] := by
  obtain ⟨r0, hr0⟩ := List.exists_mem_of_ne_nil monthData hne
  have hp0 : r0.idPerson ∈ personsOf monthData := by
    rw [personsOf, mem_pandasUnique]
    exact List.mem_map_of_mem _ hr0
  cases hsort : bookingCountsSorted monthData with
  | nil =>
    exfalso
    have hperm := List.perm_insertionSort (fun a b : Nat × Nat => b.2 ≤ a.2)
      ((personsOf monthData).map (fun p => (p, freqOf monthData p)))
    rw [bookingCountsSorted] at hsort
    rw [hsort] at hperm
    have hlen : (personsOf monthData).length = 0 := by
      have := List.Perm.length_eq hperm
      simpa using this.symm
    rw [List.length_eq_zero] at hlen
    rw [hlen] at hp0
    cases hp0
  | cons c rest =>
    have hc : c ∈ bookingCountsSorted monthData := by
      rw [hsort]; exact List.mem_cons_self c rest
    have hc' : c ∈ (personsOf monthData).map (fun p => (p, freqOf monthData p)) := by
      rw [bookingCountsSorted] at hc
      exact (List.perm_insertionSort _ _).mem_iff.mp hc
    rcases List.mem_map.mp hc' with ⟨p, hp, hpc⟩
    obtain ⟨r1, hr1, hr1p⟩ := exists_row_of_mem_personsOf _ _ hp
    have hdet : (p, r1.firstName)
        ∈ pandasUnique (monthData.map (fun r => (r.idPerson, r.firstName))) := by
      rw [mem_pandasUnique]
      exact List.mem_map.mpr ⟨r1, hr1, by rw [hr1p]⟩
    have hc1 : c.1 = p := by rw [← hpc]
    have hfpos : 1 ≤ ((pandasUnique (monthData.map (fun r => (r.idPerson, r.firstName)))).filter
        (fun d => d.1 == c.1)).length := by
      have : (p, r1.firstName) ∈ (pandasUnique (monthData.map
          (fun r => (r.idPerson, r.firstName)))).filter (fun d => d.1 == c.1) :=
        List.mem_filter.mpr ⟨hdet, by simp [hc1]⟩
      exact List.length_pos.mpr (List.ne_nil_of_mem this)
    intro habs
    have hlen := congrArg List.length habs
    simp only [get_top_20_for_month, addRanks_length, List.length_nil] at hlen
    rw [hsort, List.take_succ_cons, List.flatMap_cons, List.length_append,
      List.length_map] at hlen
    omega

/-- C6 (amended): the ranker returns the empty frame exactly when the window
has no qualifying rows OR the computation fails — the `except` handler
returns the very same empty frame (here: an unparseable period string), so
an error outcome is NOT distinguishable from the empty-but-valid success. -/
theorem calculate_top_20_empty_iff (df : List Row) (startDate endDate : String) :
    ((parsePeriod startDate = none ∨ parsePeriod endDate = none) →
        calculate_top_20 df startDate endDate = [])
    ∧ (∀ sp ep, parsePeriod startDate = some sp → parsePeriod endDate = some ep →
        (calculate_top_20 df startDate endDate = [] ↔ top20Window df sp ep = [])) := by
  constructor
  · rintro (h | h)
    · simp [calculate_top_20, h]
    · cases hp : parsePeriod startDate with
      | none => simp [calculate_top_20, hp]
      | some sp => simp [calculate_top_20, hp, h]
  · intro sp ep hs he
    constructor
    · intro hempty
      by_contra hWne
      obtain ⟨w0, hw0⟩ := List.exists_mem_of_ne_nil _ hWne
      have hWempty : (top20Window df sp ep).isEmpty = false := by
        cases hI : (top20Window df sp ep).isEmpty
        · rfl
        · exact absurd (List.isEmpty_iff.mp hI) hWne
      have hcalc : calculate_top_20 df startDate endDate
          = (pandasUnique ((top20Window df sp ep).map (·.startDateTime.periodStr))).flatMap
              (fun m' => get_top_20_for_month
                ((top20Window df sp ep).filter (fun r => r.startDateTime.periodStr == m'))) := by
        simp [calculate_top_20, hs, he, hWempty]
      set m0 := w0.startDateTime.periodStr with hm0
      have hm0mem : m0 ∈ pandasUnique ((top20Window df sp ep).map (·.startDateTime.periodStr)) := by
        rw [mem_pandasUnique]
        exact List.mem_map_of_mem _ hw0
      have hmonthne : (top20Window df sp ep).filter (fun r => r.startDateTime.periodStr == m0) ≠ [] := by
        have : w0 ∈ (top20Window df sp ep).filter (fun r => r.startDateTime.periodStr == m0) :=
          List.mem_filter.mpr ⟨hw0, by simp⟩
        exact List.ne_nil_of_mem this
      have hchunk := get_top_20_for_month_ne_nil _ hmonthne
      obtain ⟨b, hb⟩ := List.exists_mem_of_ne_nil _ hchunk
      have : b ∈ calculate_top_20 df startDate endDate := by
        rw [hcalc]
        exact List.mem_flatMap.mpr ⟨m0, hm0mem, hb⟩
      rw [hempty] at this
      cases this
    · intro hW
      have hWempty : (top20Window df sp ep).isEmpty = true := by
        rw [List.isEmpty_iff]; exact hW
      simp [calculate_top_20, hs, he, hWempty]

/-- Witness for C6 (amended): applying the theorem at `sampleA` with a
malformed start period (month 13) yields the empty frame. -/
theorem calculate_top_20_empty_iff_witness :
    calculate_top_20 sampleA "2024-13" "2024-02" = [] :=
  (calculate_top_20_empty_iff sampleA "2024-13" "2024-02").1 (Or.inl (by decide))

/-- Counterexample to C6 as stated: with a malformed start period
(`"2024-13"`, the spec's `InvalidPeriod` error condition) over a table that
does have qualifying rows, the failed computation is reported as exactly the
same empty frame that the no-rows-in-window success path returns — the error
outcome is not distinguishable from the empty-but-valid result. -/
theorem calculate_top_20_error_conflated :
    parsePeriod "2024-13" = none
    ∧ top20Window sampleA (2024, 1) (2024, 2) ≠ []
    ∧ calculate_top_20 sampleA "2024-13" "2024-02" = []
    ∧ calculate_top_20 sampleA "2025-01" "2025-02" = [] := by decide

/-! ## Per-Student Monthly Series —
`src/monthly_booking_student_callbacks.py`, `calculate_monthly_bookings` -/

/-- One output row: columns `YearMonth, Id_Person, FirstName, Bookings`. -/
structure MBRow where
  yearMonth : String
  idPerson : Nat
  firstName : String
  bookings : Nat
deriving DecidableEq, Repr

/-- `pd.to_datetime(start_date + "-01")`: first day of the start month. -/
def mbWindowStart (sp : Nat × Nat) : Timestamp := ⟨sp.1, sp.2, 1, 0⟩

/-- `pd.to_datetime(end_date + "-01") + pd.offsets.MonthEnd(1)`: the LAST DAY
of the end month at MIDNIGHT — bookings later that same day fall outside the
`<=` filter (a quirk of the source kept by the embedding). -/
def mbWindowEnd (ep : Nat × Nat) : Timestamp := ⟨ep.1, ep.2, daysInMonth ep.1 ep.2, 0⟩

/-- The filter of `calculate_monthly_bookings`: selected students, timestamp
window, Self Practice excluded case-insensitively. -/
def mbFiltered (data : List Row) (selected : List Nat) (sp ep : Nat × Nat) : List Row :=
  data.filter (fun r =>
    selected.contains r.idPerson
    && tsLe (mbWindowStart sp) r.startDateTime
    && tsLe r.startDateTime (mbWindowEnd ep)
    && ! selfPracticeCI r.className)

/-- `calculate_monthly_bookings(data, selected_students, start_date, end_date)`:
month spine crossed with `filtered_data[["Id_Person", "FirstName"]]
.drop_duplicates()` (the students present in the FILTERED data — not the
selected list), left-merged against per-(month, student, name) group sizes,
absent combinations zero-filled.  An unparseable period raises in Python
(the surrounding callback catches it); that is the `none` branch. -/
def calculate_monthly_bookings (data : List Row) (selectedStudents : List Nat)
    (startDate endDate : String) : Option (List MBRow) :=
  match parsePeriod startDate, parsePeriod endDate with
  | some sp, some ep =>
    let allMonths := (monthRange sp ep).map ymStr
    let filtered := mbFiltered data selectedStudents sp ep
    let pairs := pandasUnique (filtered.map (fun r => (r.idPerson, r.firstName)))
    some (allMonths.flatMap (fun m => pairs.map (fun pr =>
      ⟨m, pr.1, pr.2,
        (filtered.filter (fun r =>
          r.startDateTime.periodStr == m && r.idPerson == pr.1
            && r.firstName == pr.2)).length⟩)))
  | _, _ => none

/-- Single booking by student 1 in 2024-01 (student 2 exists only in the
selection, not in the table). -/
def sampleC2 : List Row :=
  [⟨1, "Ann", some "Spin Basics", ⟨2024, 1, 15, 36000⟩, some "Spin"⟩]

/-- C2 is violated by the code: with students 1 and 2 selected over the
single month 2024-01, the claim requires `1 month × 2 students = 2` rows
(student 2 zero-filled), but the spine is crossed with the students present
in the filtered data, so the result has a single row and student 2 is
silently absent. -/
theorem calculate_monthly_bookings_missing_student :
    calculate_monthly_bookings sampleC2 [1, 2] "2024-01" "2024-01"
      = some [⟨"2024-01", 1, "Ann", 1⟩]
    ∧ (monthRange (2024, 1) (2024, 1)).length * [1, 2].length = 2 := by decide

/-! ## Input-table mutation — C7

`calculate_monthly_bookings` runs
`data["YearMonth"] = data["Start_Date_time"].dt.strftime("%Y-%m")` on the
caller's frame WITHOUT copying first, so the caller's table gains a derived
column; every other component copies (`data = data.copy()` in
`calculate_monthly_stats`, `calculate_monthly_users` and
`calculate_distribution`, `.copy()` after the mask in `calculate_top_20`) or
only builds filtered views (`create_frequency_table`).  `Frame` models a
caller-visible DataFrame: its rows plus the derived `YearMonth` column when
present; each `..._post` function maps the caller's frame before a call to
the caller's frame after it. -/

structure Frame where
  rows : List Row
  yearMonthCol : Option (List String)
deriving DecidableEq, Repr

/-- Caller's frame after `calculate_monthly_bookings`: the in-place column
assignment materialises `YearMonth` on the input table. -/
def calculate_monthly_bookings_post (f : Frame) : Frame :=
  ⟨f.rows, some (f.rows.map (fun r => r.startDateTime.periodStr))⟩

/-- Caller's frame after `calculate_monthly_stats` (copies first). -/
def calculate_monthly_stats_post (f : Frame) : Frame := f

/-- Caller's frame after `calculate_top_20` (mask filter then `.copy()`). -/
def calculate_top_20_post (f : Frame) : Frame := f

/-- Caller's frame after `create_frequency_table` (filtered views only). -/
def create_frequency_table_post (f : Frame) : Frame := f

/-- Caller's frame after `calculate_distribution` (copies first). -/
def calculate_distribution_post (f : Frame) : Frame := f

/-- Caller's frame after `calculate_monthly_users` (copies first). -/
def calculate_monthly_users_post (f : Frame) : Frame := f

/-- C7 is violated by the code: on a freshly uploaded table (no `YearMonth`
column) `calculate_monthly_bookings` leaves the caller's table with an added
`YearMonth` column, while every other engine component leaves it unchanged. -/
theorem calculate_monthly_bookings_mutates_input :
    calculate_monthly_bookings_post ⟨sampleA, none⟩ ≠ ⟨sampleA, none⟩
    ∧ calculate_monthly_stats_post ⟨sampleA, none⟩ = ⟨sampleA, none⟩
    ∧ calculate_top_20_post ⟨sampleA, none⟩ = ⟨sampleA, none⟩
    ∧ create_frequency_table_post ⟨sampleA, none⟩ = ⟨sampleA, none⟩
    ∧ calculate_distribution_post ⟨sampleA, none⟩ = ⟨sampleA, none⟩
    ∧ calculate_monthly_users_post ⟨sampleA, none⟩ = ⟨sampleA, none⟩ := by decide

/-! ## Category Partition (Venn) Analyzer —
`src/student_distribution.py`, `calculate_distribution` -/

/-- The filter of `calculate_distribution`: category present and not
`"Virgin"`, Self Practice excluded — CASE-SENSITIVELY, this call site has no
`case=False` — and the month label within the inclusive string range.
(The later `FirstName` normalisation `extractParenthesized` touches only
display labels, which no claim below mentions, and is not modelled.) -/
def distFiltered (data : List Row) (startPeriod endPeriod : String) : List Row :=
  data.filter (fun r =>
    r.category.isSome
    && ! (r.category == some "Virgin")
    && ! selfPracticeCS r.className
    && strLe startPeriod r.startDateTime.periodStr
    && strLe r.startDateTime.periodStr endPeriod)

/-- `sets[cat] = set(filtered_data[filtered_data["Cateory"] == cat]["Id_Person"])`. -/
def categorySet (data : List Row) (startPeriod endPeriod cat : String) : Finset Nat :=
  (((distFiltered data startPeriod endPeriod).filter
    (fun r => r.category == some cat)).map (·.idPerson)).toFinset

def spinSet (data : List Row) (sP eP : String) : Finset Nat :=
  categorySet data sP eP "Spin"

def sportSet (data : List Row) (sP eP : String) : Finset Nat :=
  categorySet data sP eP "Sport"

def choreoSet (data : List Row) (sP eP : String) : Finset Nat :=
  categorySet data sP eP "Choreo"

/-- `sizes["100"]`: only-Spin members. -/
def subset100 (data : List Row) (sP eP : String) : Finset Nat :=
  (spinSet data sP eP \ sportSet data sP eP) \ choreoSet data sP eP

/-- `sizes["010"]`: only-Sport members. -/
def subset010 (data : List Row) (sP eP : String) : Finset Nat :=
  (sportSet data sP eP \ spinSet data sP eP) \ choreoSet data sP eP

/-- `sizes["001"]`: only-Choreo members. -/
def subset001 (data : List Row) (sP eP : String) : Finset Nat :=
  (choreoSet data sP eP \ spinSet data sP eP) \ sportSet data sP eP

/-- `sizes["110"]`: Spin-and-Sport-not-Choreo members. -/
def subset110 (data : List Row) (sP eP : String) : Finset Nat :=
  (spinSet data sP eP ∩ sportSet data sP eP) \ choreoSet data sP eP

/-- `sizes["101"]`: Spin-and-Choreo-not-Sport members. -/
def subset101 (data : List Row) (sP eP : String) : Finset Nat :=
  (spinSet data sP eP ∩ choreoSet data sP eP) \ sportSet data sP eP

/-- `sizes["011"]`: Sport-and-Choreo-not-Spin members. -/
def subset011 (data : List Row) (sP eP : String) : Finset Nat :=
  (sportSet data sP eP ∩ choreoSet data sP eP) \ spinSet data sP eP

/-- `sizes["111"]`: all-three members. -/
def subset111 (data : List Row) (sP eP : String) : Finset Nat :=
  spinSet data sP eP ∩ sportSet data sP eP ∩ choreoSet data sP eP

/-- The 7 subset member sets in the source's `subset_order`. -/
def subsetList (data : List Row) (sP eP : String) : List (Finset Nat) :=
  [subset100 data sP eP, subset010 data sP eP, subset001 data sP eP,
   subset110 data sP eP, subset101 data sP eP, subset011 data sP eP,
   subset111 data sP eP]

/-- `total_students = len(set().union(*sets.values()))`. -/
def total_students (data : List Row) (sP eP : String) : Nat :=
  (spinSet data sP eP ∪ sportSet data sP eP ∪ choreoSet data sP eP).card

/-- The Self Practice exclusion inside `calculate_monthly_stats`
(`src/MonthlyStatBooking.py`, after `data = data.copy()`). -/
def msFiltered (data : List Row) : List Row :=
  data.filter (fun r => ! selfPracticeCI r.className)

/-- C4 (amended): every reporting component drops its "Self Practice" rows,
but NOT uniformly case-insensitively: the frequency table, top-20 ranker,
per-student series and monthly stats match case-insensitively, while the
Category Partition (Venn) Analyzer matches only the exact-case phrase
"Self Practice" (its `str.contains` call lacks `case=False`); rows with a
missing class name are kept everywhere. -/
theorem self_practice_exclusion_by_component :
    (∀ (data : List Row) (p sP eP : Option String) (f : List Row),
        freqFiltered data p sP eP = some f →
        ∀ r ∈ f, selfPracticeCI r.className = false)
    ∧ (∀ (df : List Row) (sp ep : Nat × Nat),
        ∀ r ∈ top20Window df sp ep, selfPracticeCI r.className = false)
    ∧ (∀ (data : List Row) (sel : List Nat) (sp ep : Nat × Nat),
        ∀ r ∈ mbFiltered data sel sp ep, selfPracticeCI r.className = false)
    ∧ (∀ (data : List Row), ∀ r ∈ msFiltered data,
        selfPracticeCI r.className = false)
    ∧ (∀ (data : List Row) (sP eP : String), ∀ r ∈ distFiltered data sP eP,
        selfPracticeCS r.className = false)
    ∧ selfPracticeCI none = false ∧ selfPracticeCS none = false := by
  refine ⟨?_, ?_, ?_, ?_, ?_, rfl, rfl⟩
  · intro data p sP eP f hf r hr
    rcases hw : freqWindowFiltered data p sP eP with _ | w
    · rw [freqFiltered, hw] at hf; cases hf
    · rw [freqFiltered, hw, Option.map_some'] at hf
      have hf' : f = w.filter (fun r => ! selfPracticeCI r.className) :=
        (Option.some.inj hf).symm
      rw [hf'] at hr
      have := (List.mem_filter.mp hr).2
      simpa using this
  · intro df sp ep r hr
    have h1 := List.mem_of_mem_filter hr
    have := (List.mem_filter.mp h1).2
    simpa using this
  · intro data sel sp ep r hr
    have := (List.mem_filter.mp hr).2
    simp only [Bool.and_eq_true, Bool.not_eq_true'] at this
    exact this.2
  · intro data r hr
    have := (List.mem_filter.mp hr).2
    simpa using this
  · intro data sP eP r hr
    have := (List.mem_filter.mp hr).2
    simp only [Bool.and_eq_true, Bool.not_eq_true'] at this
    exact this.1.1.2

/-- Witness for C4 (amended): the frequency-table conjunct applied at
`sampleA` and its first qualifying row. -/
theorem self_practice_exclusion_by_component_witness :
    selfPracticeCI (some "Spin Basics") = false :=
  self_practice_exclusion_by_component.1 sampleA none (some "2024-01")
    (some "2024-01") sampleAF (by decide)
    ⟨1, "Ann", some "Spin Basics", ⟨2024, 1, 5, 36000⟩, some "Spin"⟩ (by decide)

/-- One row whose class name is "SELF PRACTICE" (upper case). -/
def sampleC4 : List Row :=
  [⟨1, "Ann", some "SELF PRACTICE", ⟨2024, 1, 5, 0⟩, some "Spin"⟩]

/-- Counterexample to C4 as stated: a row whose class name contains
"Self Practice" in a different letter case is NOT excluded by the Category
Partition Analyzer — student 1 still appears in its Spin member set, even
though the phrase matches case-insensitively. -/
theorem distribution_keeps_uppercase_self_practice :
    1 ∈ spinSet sampleC4 "2024-01" "2024-01"
    ∧ containsCI "Self Practice" "SELF PRACTICE" = true := by decide

theorem venn_pairwise_disjoint (A B C : Finset Nat) :
    List.Pairwise Disjoint
      [(A \ B) \ C, (B \ A) \ C, (C \ A) \ B, (A ∩ B) \ C, (A ∩ C) \ B,
       (B ∩ C) \ A, A ∩ B ∩ C] := by
  rw [List.pairwise_iff_getElem]
  intro i j hi hj hij
  simp only [List.length_cons, List.length_nil] at hi hj
  interval_cases j <;> interval_cases i <;>
    first
      | omega
      | (simp only [List.getElem_cons_zero, List.getElem_cons_succ]
         rw [Finset.disjoint_left]
         intro x hx hx'
         simp only [Finset.mem_sdiff, Finset.mem_inter] at hx hx'
         tauto)

theorem venn_union (A B C : Finset Nat) :
    ((A \ B) \ C) ∪ ((B \ A) \ C) ∪ ((C \ A) \ B) ∪ ((A ∩ B) \ C)
      ∪ ((A ∩ C) \ B) ∪ ((B ∩ C) \ A) ∪ (A ∩ B ∩ C) = A ∪ B ∪ C := by
  ext x
  simp only [Finset.mem_union, Finset.mem_sdiff, Finset.mem_inter]
  tauto

theorem venn_card_sum (A B C : Finset Nat) :
    ((A \ B) \ C).card + ((B \ A) \ C).card + ((C \ A) \ B).card
      + ((A ∩ B) \ C).card + ((A ∩ C) \ B).card + ((B ∩ C) \ A).card
      + (A ∩ B ∩ C).card = (A ∪ B ∪ C).card := by
  have d2 : Disjoint ((A \ B) \ C) ((B \ A) \ C) := by
    rw [Finset.disjoint_left]; intro x hx hx'
    simp only [Finset.mem_sdiff] at hx hx'; tauto
  have d3 : Disjoint (((A \ B) \ C) ∪ ((B \ A) \ C)) ((C \ A) \ B) := by
    rw [Finset.disjoint_left]; intro x hx hx'
    simp only [Finset.mem_union, Finset.mem_sdiff] at hx hx'; tauto
  have d4 : Disjoint ((((A \ B) \ C) ∪ ((B \ A) \ C)) ∪ ((C \ A) \ B))
      ((A ∩ B) \ C) := by
    rw [Finset.disjoint_left]; intro x hx hx'
    simp only [Finset.mem_union, Finset.mem_sdiff, Finset.mem_inter] at hx hx'
    tauto
  have d5 : Disjoint (((((A \ B) \ C) ∪ ((B \ A) \ C)) ∪ ((C \ A) \ B))
        ∪ ((A ∩ B) \ C)) ((A ∩ C) \ B) := by
    rw [Finset.disjoint_left]; intro x hx hx'
    simp only [Finset.mem_union, Finset.mem_sdiff, Finset.mem_inter] at hx hx'
    tauto
  have d6 : Disjoint ((((((A \ B) \ C) ∪ ((B \ A) \ C)) ∪ ((C \ A) \ B))
        ∪ ((A ∩ B) \ C)) ∪ ((A ∩ C) \ B)) ((B ∩ C) \ A) := by
    rw [Finset.disjoint_left]; intro x hx hx'
    simp only [Finset.mem_union, Finset.mem_sdiff, Finset.mem_inter] at hx hx'
    tauto
  have d7 : Disjoint (((((((A \ B) \ C) ∪ ((B \ A) \ C)) ∪ ((C \ A) \ B))
        ∪ ((A ∩ B) \ C)) ∪ ((A ∩ C) \ B)) ∪ ((B ∩ C) \ A)) (A ∩ B ∩ C) := by
    rw [Finset.disjoint_left]; intro x hx hx'
    simp only [Finset.mem_union, Finset.mem_sdiff, Finset.mem_inter] at hx hx'
    tauto
  rw [← venn_union A B C]
  rw [Finset.card_union_of_disjoint d7, Finset.card_union_of_disjoint d6,
    Finset.card_union_of_disjoint d5, Finset.card_union_of_disjoint d4,
    Finset.card_union_of_disjoint d3, Finset.card_union_of_disjoint d2]

/-- C5: the analyzer's 7 subset member sets are pairwise disjoint, their
union is the union of the three category membership sets, and their member
counts sum to `total_students`, the size of that union. -/
theorem distribution_partition (data : List Row) (sP eP : String) :
    List.Pairwise Disjoint (subsetList data sP eP)
    ∧ subset100 data sP eP ∪ subset010 data sP eP ∪ subset001 data sP eP
        ∪ subset110 data sP eP ∪ subset101 data sP eP ∪ subset011 data sP eP
        ∪ subset111 data sP eP
      = spinSet data sP eP ∪ sportSet data sP eP ∪ choreoSet data sP eP
    ∧ (subset100 data sP eP).card + (subset010 data sP eP).card
        + (subset001 data sP eP).card + (subset110 data sP eP).card
        + (subset101 data sP eP).card + (subset011 data sP eP).card
        + (subset111 data sP eP).card = total_students data sP eP := by
  refine ⟨?_, ?_, ?_⟩
  · exact venn_pairwise_disjoint (spinSet data sP eP) (sportSet data sP eP)
      (choreoSet data sP eP)
  · exact venn_union (spinSet data sP eP) (sportSet data sP eP)
      (choreoSet data sP eP)
  · exact venn_card_sum (spinSet data sP eP) (sportSet data sP eP)
      (choreoSet data sP eP)

/-! ## Distribution retention metrics — C9

`calculate_distribution` computes `total_months = pd.period_range(start,
end).size` and, per student, `avg_bookings_per_month[sid] =
round(total_bookings_per_student[sid] / total_months, 1)` — rounded to ONE
decimal with Python banker's rounding; `create_details_table` then retains a
student iff this ROUNDED average is `>= 2`.  Python rounds the binary
double; on exact tenths-free values such as the ones used below this agrees
with half-even rounding of the exact rational, which is what `round1`
implements. -/

def total_months (sp ep : Nat × Nat) : Nat := (monthRange sp ep).length

/-- `Month` groups of one student inside the filtered data. -/
def monthsOfStudent (f : List Row) (sid : Nat) : List String :=
  pandasUnique ((f.filter (fun r => r.idPerson == sid)).map (·.startDateTime.periodStr))

/-- `bookings_per_student.groupby("Id_Person")["Bookings"].sum()[sid]`:
per-(student, month) group sizes summed over the student's months. -/
def total_bookings_per_student (f : List Row) (sid : Nat) : Nat :=
  ((monthsOfStudent f sid).map (fun m =>
    (f.filter (fun r =>
      r.idPerson == sid && r.startDateTime.periodStr == m)).length)).sum

/-- Round half to even (Python `round` on an exact rational). -/
def roundHalfEven (q : ℚ) : ℤ :=
  if q - ⌊q⌋ < 1/2 then ⌊q⌋
  else if 1/2 < q - ⌊q⌋ then ⌊q⌋ + 1
  else if ⌊q⌋ % 2 = 0 then ⌊q⌋ else ⌊q⌋ + 1

/-- `round(x, 1)`. -/
def round1 (q : ℚ) : ℚ := (roundHalfEven (10 * q) : ℚ) / 10

/-- The `avg_bookings_per_month` dict: an entry exists exactly for students
appearing in the filtered data; `.get(sid, 0)` is modelled by `.getD 0`. -/
def avg_bookings_per_month (f : List Row) (months : Nat) (sid : Nat) : Option ℚ :=
  if (f.filter (fun r => r.idPerson == sid)).length ≠ 0 then
    some (round1 ((total_bookings_per_student f sid : ℚ) / (months : ℚ)))
  else none

/-- `retention_students` of a partition subset in `create_details_table`. -/
def retention_students (f : List Row) (months : Nat) (students : Finset Nat) : Finset Nat :=
  students.filter (fun sid => 2 ≤ (avg_bookings_per_month f months sid).getD 0)

/-- `retention_pct = len(retention_students) / len(students) * 100 if students else 0`. -/
def retention_pct (f : List Row) (months : Nat) (students : Finset Nat) : ℚ :=
  if students = ∅ then 0
  else ((retention_students f months students).card : ℚ) / (students.card : ℚ) * 100

/-- `avg_booking_retention = round(sum(avg over retained) / len(retained), 1)
if retention_students else 0`. -/
def avg_booking_retention (f : List Row) (months : Nat) (students : Finset Nat) : ℚ :=
  if retention_students f months students = ∅ then 0
  else round1 (((retention_students f months students).sum
      (fun sid => (avg_bookings_per_month f months sid).getD 0))
    / ((retention_students f months students).card : ℚ))

theorem count_map_eq {α β : Type} [DecidableEq β] (l : List α) (k : α → β) (b : β) :
    (l.map k).count b = (l.filter (fun a => k a == b)).length := by
  induction l with
  | nil => simp
  | cons a l ih =>
    by_cases h : k a = b
    · simp [List.count_cons, List.filter_cons, h, ih]
    · simp [List.count_cons, List.filter_cons, h, ih]

theorem sum_count_pandasUnique {β : Type} [DecidableEq β] (L : List β) :
    ((pandasUnique L).map (fun b => L.count b)).sum = L.length := by
  have h1 : ((pandasUnique L).map (fun b => L.count b)).sum
      = (pandasUnique L).toFinset.sum (fun b => L.count b) :=
    (List.sum_toFinset _ (nodup_pandasUnique L)).symm
  have h2 : (pandasUnique L).toFinset = L.toFinset := by
    ext x; simp [List.mem_toFinset, mem_pandasUnique]
  rw [h1, h2]
  have h3 := Multiset.toFinset_sum_count_eq (L : Multiset β)
  simpa using h3

/-- Group-then-sum identity: per distinct key, the group sizes sum back to
the list length. -/
theorem sum_counts_by_key {α β : Type} [DecidableEq β] (l : List α) (k : α → β) :
    ((pandasUnique (l.map k)).map
      (fun b => (l.filter (fun a => k a == b)).length)).sum = l.length := by
  have hcong : (pandasUnique (l.map k)).map
        (fun b => (l.filter (fun a => k a == b)).length)
      = (pandasUnique (l.map k)).map (fun b => (l.map k).count b) := by
    apply List.map_congr_left
    intro b _
    rw [count_map_eq]
  rw [hcong, sum_count_pandasUnique, List.length_map]

/-- The source's month-group-then-sum per-student total equals the plain
count of the student's rows. -/
theorem total_bookings_eq_freq (f : List Row) (sid : Nat) :
    total_bookings_per_student f sid = freqOf f sid := by
  have hsplit : ∀ m ∈ monthsOfStudent f sid,
      (f.filter (fun r =>
        r.idPerson == sid && r.startDateTime.periodStr == m)).length
      = ((f.filter (fun r => r.idPerson == sid)).filter
          (fun r => r.startDateTime.periodStr == m)).length := by
    intro m _
    rw [List.filter_filter]
    congr 1
    apply List.filter_congr
    intro r _
    rw [Bool.and_comm]
  rw [total_bookings_per_student, List.map_congr_left hsplit]
  exact sum_counts_by_key (f.filter (fun r => r.idPerson == sid))
    (fun r => r.startDateTime.periodStr)

theorem categorySet_mem_row (data : List Row) (sP eP cat : String) (sid : Nat)
    (h : sid ∈ categorySet data sP eP cat) :
    0 < ((distFiltered data sP eP).filter (fun r => r.idPerson == sid)).length := by
  rw [categorySet, List.mem_toFinset] at h
  rcases List.mem_map.mp h with ⟨r, hr, hrid⟩
  have hr' : r ∈ distFiltered data sP eP := List.mem_of_mem_filter hr
  have hmem : r ∈ (distFiltered data sP eP).filter (fun r => r.idPerson == sid) :=
    List.mem_filter.mpr ⟨hr', by simp [hrid]⟩
  exact List.length_pos.mpr (List.ne_nil_of_mem hmem)

theorem subset_member_has_row (data : List Row) (sP eP : String)
    (students : Finset Nat) (hs : students ∈ subsetList data sP eP)
    (sid : Nat) (hsid : sid ∈ students) :
    0 < ((distFiltered data sP eP).filter (fun r => r.idPerson == sid)).length := by
  simp only [subsetList, List.mem_cons, List.not_mem_nil, or_false] at hs
  rcases hs with rfl | rfl | rfl | rfl | rfl | rfl | rfl
  · exact categorySet_mem_row data sP eP "Spin" sid
      (Finset.mem_sdiff.mp (Finset.mem_sdiff.mp hsid).1).1
  · exact categorySet_mem_row data sP eP "Sport" sid
      (Finset.mem_sdiff.mp (Finset.mem_sdiff.mp hsid).1).1
  · exact categorySet_mem_row data sP eP "Choreo" sid
      (Finset.mem_sdiff.mp (Finset.mem_sdiff.mp hsid).1).1
  · exact categorySet_mem_row data sP eP "Spin" sid
      (Finset.mem_inter.mp (Finset.mem_sdiff.mp hsid).1).1
  · exact categorySet_mem_row data sP eP "Spin" sid
      (Finset.mem_inter.mp (Finset.mem_sdiff.mp hsid).1).1
  · exact categorySet_mem_row data sP eP "Sport" sid
      (Finset.mem_inter.mp (Finset.mem_sdiff.mp hsid).1).1
  · exact categorySet_mem_row data sP eP "Spin" sid
      (Finset.mem_inter.mp (Finset.mem_inter.mp hsid).1).1

/-- C9 (amended): each partition member's average is the total in-window
booking count divided by the inclusive month count and then ROUNDED TO ONE
DECIMAL (half-even); a student is retained exactly when this rounded average
is at least 2; the retention percentage is the retained fraction of the
subset, and avg-booking-retention is the mean of the ROUNDED averages over
the retained members, itself rounded to one decimal. -/
theorem distribution_retention_metrics
    (data : List Row) (sP eP : String) (sp ep : Nat × Nat)
    (hsp : parsePeriod sP = some sp) (hep : parsePeriod eP = some ep)
    (students : Finset Nat) (hs : students ∈ subsetList data sP eP) :
    (∀ sid ∈ students,
        avg_bookings_per_month (distFiltered data sP eP) (total_months sp ep) sid
          = some (round1 ((freqOf (distFiltered data sP eP) sid : ℚ)
              / (total_months sp ep : ℚ))))
    ∧ retention_students (distFiltered data sP eP) (total_months sp ep) students
        = students.filter (fun sid =>
            2 ≤ round1 ((freqOf (distFiltered data sP eP) sid : ℚ)
              / (total_months sp ep : ℚ)))
    ∧ (students ≠ ∅ →
        retention_pct (distFiltered data sP eP) (total_months sp ep) students
          = ((students.filter (fun sid =>
                2 ≤ round1 ((freqOf (distFiltered data sP eP) sid : ℚ)
                  / (total_months sp ep : ℚ)))).card : ℚ)
            / (students.card : ℚ) * 100)
    ∧ (retention_students (distFiltered data sP eP) (total_months sp ep) students ≠ ∅ →
        avg_booking_retention (distFiltered data sP eP) (total_months sp ep) students
          = round1 (((retention_students (distFiltered data sP eP)
                (total_months sp ep) students).sum
              (fun sid => round1 ((freqOf (distFiltered data sP eP) sid : ℚ)
                / (total_months sp ep : ℚ))))
            / ((retention_students (distFiltered data sP eP)
                (total_months sp ep) students).card : ℚ))) := by
  have havg : ∀ sid ∈ students,
      avg_bookings_per_month (distFiltered data sP eP) (total_months sp ep) sid
        = some (round1 ((freqOf (distFiltered data sP eP) sid : ℚ)
            / (total_months sp ep : ℚ))) := by
    intro sid hsid
    have hpos := subset_member_has_row data sP eP students hs sid hsid
    rw [avg_bookings_per_month, if_pos (Nat.pos_iff_ne_zero.mp hpos),
      total_bookings_eq_freq]
  have hret : retention_students (distFiltered data sP eP) (total_months sp ep) students
      = students.filter (fun sid =>
          2 ≤ round1 ((freqOf (distFiltered data sP eP) sid : ℚ)
            / (total_months sp ep : ℚ))) := by
    ext sid
    simp only [retention_students, Finset.mem_filter]
    constructor
    · rintro ⟨h1, h2⟩
      refine ⟨h1, ?_⟩
      rw [havg sid h1] at h2
      simpa using h2
    · rintro ⟨h1, h2⟩
      refine ⟨h1, ?_⟩
      rw [havg sid h1]
      simpa using h2
  refine ⟨havg, hret, ?_, ?_⟩
  · intro hne
    rw [retention_pct, if_neg hne, hret]
  · intro hrne
    rw [avg_booking_retention, if_neg hrne]
    congr 1
    congr 1
    apply Finset.sum_congr rfl
    intro sid hsid
    have h1 : sid ∈ students := (Finset.mem_filter.mp hsid).1
    rw [havg sid h1]
    simp

/-- One student with a single booking in a three-month window. -/
def sampleC9 : List Row :=
  [⟨1, "Ann", some "Spin Basics", ⟨2024, 1, 15, 36000⟩, some "Spin"⟩]

/-- Witness for C9 (amended): student 1 of `sampleC9` is an only-Spin member
and its dict entry carries the rounded average. -/
theorem distribution_retention_metrics_witness :
    avg_bookings_per_month (distFiltered sampleC9 "2024-01" "2024-03")
        (total_months (2024, 1) (2024, 3)) 1
      = some (round1 ((freqOf (distFiltered sampleC9 "2024-01" "2024-03") 1 : ℚ)
          / (total_months (2024, 1) (2024, 3) : ℚ))) :=
  (distribution_retention_metrics sampleC9 "2024-01" "2024-03" (2024, 1) (2024, 3)
    (by decide) (by decide) (subset100 sampleC9 "2024-01" "2024-03")
    (List.mem_cons_self _ _)).1 1 (by decide)

/-- Counterexample to C9 as stated: over the window 2024-01..2024-03
(3 months) a student with 1 booking gets the stored average `round(1/3, 1) =
0.3`, which is NOT equal to the claim's exact `total / months = 1/3`. -/
theorem distribution_avg_rounded :
    total_months (2024, 1) (2024, 3) = 3
    ∧ total_bookings_per_student (distFiltered sampleC9 "2024-01" "2024-03") 1 = 1
    ∧ avg_bookings_per_month (distFiltered sampleC9 "2024-01" "2024-03")
        (total_months (2024, 1) (2024, 3)) 1 = some (3 / 10)
    ∧ ((3 : ℚ) / 10) ≠ 1 / 3 := by
  have hm : total_months (2024, 1) (2024, 3) = 3 := by decide
  have htot : total_bookings_per_student (distFiltered sampleC9 "2024-01" "2024-03") 1 = 1 := by
    decide
  have hlen : ((distFiltered sampleC9 "2024-01" "2024-03").filter
      (fun r => r.idPerson == 1)).length ≠ 0 := by decide
  have hround : round1 ((1 : ℚ) / 3) = 3 / 10 := by
    have h10 : (10 : ℚ) * ((1 : ℚ) / 3) = 10 / 3 := by norm_num
    have hfl : (⌊(10 : ℚ) / 3⌋ : ℤ) = 3 := by norm_num
    rw [round1, roundHalfEven, h10, hfl]
    norm_num
  refine ⟨hm, htot, ?_, by norm_num⟩
  rw [avg_bookings_per_month, if_pos hlen, htot, hm]
  rw [show ((1 : Nat) : ℚ) / ((3 : Nat) : ℚ) = (1 : ℚ) / 3 by norm_num]
  rw [hround]

/-! ## Monthly Threshold Counter —
`src/monthly_user_booking_analysis.py`, `calculate_monthly_users` -/

/-- A student's booking count in one month: the size of the
`(YearMonth, Id_Person)` group. -/
def countInMonth (data : List Row) (m : String) (sid : Nat) : Nat :=
  (data.filter (fun r =>
    r.startDateTime.periodStr == m && r.idPerson == sid)).length

/-- `booking_frequencies = data.groupby(["YearMonth", "Id_Person"]).size()`:
one entry per distinct (month, student) pair with its count.  (pandas sorts
the group keys; only the set of keys matters for the claims below.) -/
def bookingFreqs (data : List Row) : List ((String × Nat) × Nat) :=
  (pandasUnique (data.map (fun r => (r.startDateTime.periodStr, r.idPerson)))).map
    (fun key => (key, countInMonth data key.1 key.2))

/-- The months of the grouped data — the index every per-threshold series is
built over (`booking_frequencies.groupby("YearMonth")`). -/
def monthsBF (data : List Row) : List String :=
  pandasUnique ((bookingFreqs data).map (·.1.1))

/-- One per-threshold series: for each month of the grouped data,
`(x >= n).sum()` over that month's `Bookings` values. -/
def thresholdSeries (data : List Row) (n : Nat) : List (String × Nat) :=
  (monthsBF data).map (fun m =>
    (m, ((bookingFreqs data).filter (fun kv => kv.1.1 == m && n ≤ kv.2)).length))

/-- Value of a merged series at a month key (`pd.merge` matching). -/
def lookupMonth (l : List (String × Nat)) (m : String) : Option Nat :=
  (l.find? (fun p => p.1 == m)).map (·.2)

/-- One `pd.merge(acc, nxt, on="YearMonth", how="outer")` step: existing rows
gain the matched value (or a missing cell), unmatched right keys append new
rows padded with missing cells. -/
def outerMergeStep (acc : List (String × List (Option Nat))) (width : Nat)
    (nxt : List (String × Nat)) : List (String × List (Option Nat)) :=
  (acc.map (fun row => (row.1, row.2 ++ [lookupMonth nxt row.1])))
  ++ ((nxt.filter (fun p => ! (acc.map (·.1)).contains p.1)).map
      (fun p => (p.1, List.replicate width none ++ [some p.2])))

def outerMergeAll : List (String × List (Option Nat)) → Nat →
    List (List (String × Nat)) → List (String × List (Option Nat))
  | acc, _, [] => acc
  | acc, width, s :: rest => outerMergeAll (outerMergeStep acc width s) (width + 1) rest

/-- `calculate_monthly_users(data, thresholds)`: fold the per-threshold
series into one outer-merged table (`results[0]` raises `IndexError` on an
empty threshold list — the `none` branch). -/
def calculate_monthly_users (data : List Row) (thresholds : List Nat) :
    Option (List (String × List (Option Nat))) :=
  match thresholds with
  | [] => none
  | t :: ts =>
    some (outerMergeAll
      ((thresholdSeries data t).map (fun p => (p.1, [some p.2]))) 1
      (ts.map (thresholdSeries data)))

/-- The claim's cell value: the number of students whose booking count in
month `m` is at least `n` (0 when no student qualifies). -/
def usersAtLeast (data : List Row) (m : String) (n : Nat) : Nat :=
  ((pandasUnique (data.map (·.idPerson))).filter
    (fun sid => n ≤ countInMonth data m sid)).length

theorem length_eq_of_nodup_of_mem_iff {α : Type} [DecidableEq α]
    (l l' : List α) (h : l.Nodup) (h' : l'.Nodup)
    (hm : ∀ x, x ∈ l ↔ x ∈ l') : l.length = l'.length :=
  List.Perm.length_eq
    (List.perm_of_nodup_nodup_toFinset_eq h h' (by ext x; simp [List.mem_toFinset, hm]))

/-- For a positive threshold, the series value at a month is exactly the
number of students with booking count at least `n` in that month. -/
theorem thresholdSeries_cell (data : List Row) (n : Nat) (hn : 0 < n) (m : String) :
    ((bookingFreqs data).filter (fun kv => kv.1.1 == m && n ≤ kv.2)).length
      = usersAtLeast data m n := by
  rw [bookingFreqs, List.filter_map, List.length_map]
  set A := pandasUnique (data.map (fun r => (r.startDateTime.periodStr, r.idPerson)))
    with hA
  set g : String × Nat → Bool :=
    fun key => key.1 == m && decide (n ≤ countInMonth data key.1 key.2) with hg
  have hgA : A.filter ((fun kv : (String × Nat) × Nat => kv.1.1 == m && n ≤ kv.2)
      ∘ (fun key => (key, countInMonth data key.1 key.2))) = A.filter g := by
    apply List.filter_congr
    intro k _
    simp [hg, Function.comp]
  rw [hgA]
  have h1 : ((A.filter g).map (·.2)).length = (A.filter g).length := List.length_map _ _
  rw [← h1, usersAtLeast]
  apply length_eq_of_nodup_of_mem_iff
  · apply List.Nodup.map_on
    · intro x hx y hy hxy
      have hxm : x.1 = m := by
        have := (List.mem_filter.mp hx).2
        simp [hg] at this
        exact this.1
      have hym : y.1 = m := by
        have := (List.mem_filter.mp hy).2
        simp [hg] at this
        exact this.1
      cases x; cases y
      simp only at hxy hxm hym
      simp [hxm, hym, hxy]
    · exact (nodup_pandasUnique _).filter _
  · exact (nodup_pandasUnique _).filter _
  · intro sid
    constructor
    · intro hs
      rcases List.mem_map.mp hs with ⟨k, hk, hk2⟩
      have hkA := (List.mem_filter.mp hk).1
      have hkg := (List.mem_filter.mp hk).2
      simp [hg] at hkg
      have hk1 : k.1 = m := hkg.1
      have hkey : k = (m, sid) := by
        cases k
        simp only at hk1 hk2
        simp [hk1, hk2]
      rw [hkey] at hkA
      rw [hA, mem_pandasUnique] at hkA
      rcases List.mem_map.mp hkA with ⟨r, hr, hrk⟩
      refine List.mem_filter.mpr ⟨?_, ?_⟩
      · rw [mem_pandasUnique]
        refine List.mem_map.mpr ⟨r, hr, ?_⟩
        have : r.idPerson = sid := congrArg Prod.snd hrk
        exact this
      · have : countInMonth data k.1 k.2 = countInMonth data m sid := by
          rw [hkey]
        rw [this] at hkg
        simp [hkg.2]
    · intro hs
      have hsid := (List.mem_filter.mp hs).1
      have hcnt := (List.mem_filter.mp hs).2
      simp only [decide_eq_true_eq] at hcnt
      have hcnt' : 0 < countInMonth data m sid := lt_of_lt_of_le hn hcnt
      have hrow : ∃ r ∈ data, r.startDateTime.periodStr = m ∧ r.idPerson = sid := by
        rw [countInMonth] at hcnt'
        rcases List.exists_mem_of_ne_nil _
          (List.ne_nil_of_length_pos hcnt') with ⟨r, hr⟩
        have h2 := (List.mem_filter.mp hr).2
        simp at h2
        exact ⟨r, List.mem_of_mem_filter hr, h2⟩
      rcases hrow with ⟨r, hr, hrm, hrs⟩
      refine List.mem_map.mpr ⟨(m, sid), List.mem_filter.mpr ⟨?_, ?_⟩, rfl⟩
      · rw [hA, mem_pandasUnique]
        exact List.mem_map.mpr ⟨r, hr, by rw [hrm, hrs]⟩
      · simp [hg, hcnt]

theorem outerMergeStep_aligned (acc : List (String × List (Option Nat)))
    (s : List (String × Nat)) (width : Nat)
    (hsub : ∀ p ∈ s, p.1 ∈ acc.map (·.1)) :
    outerMergeStep acc width s
      = acc.map (fun row => (row.1, row.2 ++ [lookupMonth s row.1])) := by
  rw [outerMergeStep]
  have hnil : s.filter (fun p => ! (acc.map (·.1)).contains p.1) = [] := by
    rw [List.filter_eq_nil_iff]
    intro p hp
    simp [List.contains, List.elem_iff, hsub p hp]
  rw [hnil]
  simp

theorem outerMergeAll_aligned :
    ∀ (rest : List (List (String × Nat)))
      (acc : List (String × List (Option Nat))) (width : Nat),
      (∀ s ∈ rest, ∀ p ∈ s, p.1 ∈ acc.map (·.1)) →
      outerMergeAll acc width rest
        = acc.map (fun row =>
            (row.1, row.2 ++ rest.map (fun s => lookupMonth s row.1))) := by
  intro rest
  induction rest with
  | nil =>
    intro acc width _
    simp [outerMergeAll]
  | cons s rest ih =>
    intro acc width hkeys
    rw [outerMergeAll]
    rw [outerMergeStep_aligned acc s width (hkeys s (List.mem_cons_self s rest))]
    have hkeys' : ∀ s' ∈ rest, ∀ p ∈ s',
        p.1 ∈ (acc.map (fun row => (row.1, row.2 ++ [lookupMonth s row.1]))).map (·.1) := by
      intro s' hs' p hp
      have := hkeys s' (List.mem_cons_of_mem s hs') p hp
      simpa [List.map_map, Function.comp] using this
    rw [ih _ (width + 1) hkeys']
    rw [List.map_map]
    apply List.map_congr_left
    intro row _
    simp [Function.comp, List.append_assoc]

theorem find?_map_keys {γ : Type} (l : List String) (hl : l.Nodup)
    (c : String → γ) (m : String) (hm : m ∈ l) :
    ((l.map (fun k => (k, c k))).find? (fun p => p.1 == m)) = some (m, c m) := by
  induction l with
  | nil => cases hm
  | cons a l ih =>
    rcases List.mem_cons.mp hm with rfl | hm'
    · rw [List.map_cons]
      exact List.find?_cons_of_pos _ (by simp)
    · have hne : a ≠ m := fun h => (List.nodup_cons.mp hl).1 (h ▸ hm')
      rw [List.map_cons, List.find?_cons_of_neg _ (by simp [hne])]
      exact ih (List.nodup_cons.mp hl).2 hm'

theorem lookup_thresholdSeries (data : List Row) (n : Nat) (m : String)
    (hm : m ∈ monthsBF data) :
    lookupMonth (thresholdSeries data n) m
      = some (((bookingFreqs data).filter
          (fun kv => kv.1.1 == m && n ≤ kv.2)).length) := by
  rw [lookupMonth, thresholdSeries,
    find?_map_keys (monthsBF data) (nodup_pandasUnique _) _ m hm]
  rfl

theorem mem_monthsBF (data : List Row) (m : String) :
    m ∈ monthsBF data ↔ ∃ r ∈ data, r.startDateTime.periodStr = m := by
  rw [monthsBF, mem_pandasUnique, bookingFreqs, List.map_map]
  constructor
  · intro h
    rcases List.mem_map.mp h with ⟨key, hkey, hkm⟩
    rw [mem_pandasUnique] at hkey
    rcases List.mem_map.mp hkey with ⟨r, hr, hrk⟩
    refine ⟨r, hr, ?_⟩
    have : r.startDateTime.periodStr = key.1 := congrArg Prod.fst hrk
    rw [this]
    exact hkm
  · rintro ⟨r, hr, hrm⟩
    refine List.mem_map.mpr ⟨(r.startDateTime.periodStr, r.idPerson), ?_, hrm⟩
    rw [mem_pandasUnique]
    exact List.mem_map.mpr ⟨r, hr, rfl⟩

/-- C10: with a non-empty list of positive thresholds the merged result has
exactly one row per month with at least one booking in the grouped data, in
the grouped order, and every per-threshold cell is a defined value equal to
the number of students booking at least `n` times that month — the outer
merge never produces a missing cell because every per-threshold series is
indexed by the same month list. -/
theorem calculate_monthly_users_dense (data : List Row) (thresholds : List Nat)
    (hne : thresholds ≠ []) (hpos : ∀ n ∈ thresholds, 0 < n) :
    calculate_monthly_users data thresholds
      = some ((monthsBF data).map (fun m =>
          (m, thresholds.map (fun n => some (usersAtLeast data m n)))))
    ∧ (monthsBF data).Nodup
    ∧ (∀ m, m ∈ monthsBF data ↔ ∃ r ∈ data, r.startDateTime.periodStr = m) := by
  refine ⟨?_, nodup_pandasUnique _, mem_monthsBF data⟩
  match thresholds, hne with
  | t :: ts, _ =>
    rw [calculate_monthly_users]
    have hacc : (thresholdSeries data t).map (fun p => (p.1, [some p.2]))
        = (monthsBF data).map (fun m =>
            (m, [some (((bookingFreqs data).filter
              (fun kv => kv.1.1 == m && t ≤ kv.2)).length)])) := by
      rw [thresholdSeries, List.map_map]
      rfl
    have hkeys : ∀ s ∈ ts.map (thresholdSeries data), ∀ p ∈ s,
        p.1 ∈ ((thresholdSeries data t).map (fun p => (p.1, [some p.2]))).map (·.1) := by
      intro s hs p hp
      rcases List.mem_map.mp hs with ⟨n, _, hsn⟩
      rw [← hsn] at hp
      rcases List.mem_map.mp hp with ⟨m, hmm, hmp⟩
      have hp1 : p.1 = m := by rw [← hmp]
      rw [hp1, hacc, List.map_map]
      exact List.mem_map.mpr ⟨m, hmm, rfl⟩
    rw [outerMergeAll_aligned (ts.map (thresholdSeries data)) _ 1 hkeys]
    rw [hacc, List.map_map]
    congr 1
    apply List.map_congr_left
    intro m hmm
    simp only [Function.comp]
    congr 1
    rw [List.map_map]
    have hcell : ∀ n ∈ ts,
        lookupMonth (thresholdSeries data n) m = some (usersAtLeast data m n) := by
      intro n hn
      rw [lookup_thresholdSeries data n m hmm,
        thresholdSeries_cell data n (hpos n (List.mem_cons_of_mem t hn)) m]
    have hhead : ((bookingFreqs data).filter
        (fun kv => kv.1.1 == m && t ≤ kv.2)).length = usersAtLeast data m t :=
      thresholdSeries_cell data t (hpos t (List.mem_cons_self t ts)) m
    rw [hhead, List.singleton_append, List.map_cons]
    congr 1
    apply List.map_congr_left
    intro n hn
    simp only [Function.comp]
    exact hcell n hn

/-- Witness for C10 at `sampleA` with thresholds `[1, 2]`: one dense row for
2024-01 with both cells defined. -/
theorem calculate_monthly_users_dense_witness :
    calculate_monthly_users sampleA [1, 2]
      = some ((monthsBF sampleA).map (fun m =>
          (m, [1, 2].map (fun n => some (usersAtLeast sampleA m n))))) :=
  (calculate_monthly_users_dense sampleA [1, 2] (by decide) (by decide)).1
